import Mathlib

/-!
Verification of the interactive-canvas engine of react-router-cf-starter.

The development shallowly embeds the engine's data model and operations:

* app/models/canvas.ts        — the Shape discriminated union;
* app/utils/geometry.ts       — pure geometry helpers (hit tests, sorts, isSquare);
* app/hooks/useHistory.ts     — the generic linear undo/redo store;
* the Canvas pointer handlers — handlePointerDown / handlePointerMove /
  handlePointerUp, embedded as pure transition functions on a World record
  that combines the history store, the selection and the component-local
  interaction state (the React props/state round trip between two pointer
  events is modeled as synchronous state passing, which matches the
  single-threaded event-driven semantics of the code).

Numbers are embedded as exact rationals.  The source computes Euclidean
distances with a square root and immediately compares them against
nonnegative thresholds; the embedding keeps those comparisons decidable by
comparing squared distances against squared thresholds, and the lemmas
getDistance_le_iff / getDistance_lt_iff / lt_getDistance_iff prove that this
is equivalent to the source's comparison of real square roots.
-/

namespace Spec2Proof

/-- Shape variant tag, from app/models/canvas.ts (ShapeType). -/
inductive ShapeType
  | point
  | rectangle
deriving DecidableEq

/-- Resize corner, from app/models/canvas.ts (Corner). -/
inductive Corner
  | tl
  | tr
  | bl
  | br
deriving DecidableEq

/-- A shape, from app/models/canvas.ts.  The source is a discriminated union:
Point carries id/type/x/y/createdAt and Rectangle additionally width/height.
The embedding uses one flat record; the width/height fields of a point are
set to 0 at creation and are never read by any code path that dispatches on
the point tag (a spread update in JS keeps absent fields absent, which a
record update models as keeping the fields unchanged).  Ids are
crypto.randomUUID() strings in the source, modeled as naturals drawn from a
fresh counter; createdAt is a Date.now() number, modeled as a rational. -/
structure Shape where
  id : Nat
  type : ShapeType
  x : ℚ
  y : ℚ
  width : ℚ
  height : ℚ
  createdAt : ℚ
deriving DecidableEq

/-! ## Geometry (app/utils/geometry.ts) -/

/-- POINT_HIT_RADIUS from geometry.ts. -/
def POINT_HIT_RADIUS : ℚ := 10

/-- RESIZE_HANDLE_SIZE from geometry.ts. -/
def RESIZE_HANDLE_SIZE : ℚ := 8

/-- Squared Euclidean distance.  The source's getDistance returns
Math.sqrt of this quantity; every use in the engine compares the distance
with a nonnegative constant, which the embedding performs on squares. -/
def getDistanceSq (x1 y1 x2 y2 : ℚ) : ℚ := (x2 - x1) ^ 2 + (y2 - y1) ^ 2

/-- The source's getDistance (Euclidean distance, with the square root). -/
noncomputable def getDistance (x1 y1 x2 y2 : ℚ) : ℝ :=
  Real.sqrt ((getDistanceSq x1 y1 x2 y2 : ℚ) : ℝ)

lemma getDistanceSq_nonneg (x1 y1 x2 y2 : ℚ) : 0 ≤ getDistanceSq x1 y1 x2 y2 := by
  have h1 : (0:ℚ) ≤ (x2 - x1) ^ 2 := sq_nonneg _
  have h2 : (0:ℚ) ≤ (y2 - y1) ^ 2 := sq_nonneg _
  simpa [getDistanceSq] using add_nonneg h1 h2

/-- Comparing the real distance with a nonnegative rational threshold is the
same as comparing the squared distance with the squared threshold. -/
lemma getDistance_le_iff {x1 y1 x2 y2 r : ℚ} (hr : 0 ≤ r) :
    getDistance x1 y1 x2 y2 ≤ (r : ℝ) ↔ getDistanceSq x1 y1 x2 y2 ≤ r ^ 2 := by
  rw [getDistance, show ((r : ℚ) : ℝ) = Real.sqrt ((r : ℝ) ^ 2) by
    rw [Real.sqrt_sq (by exact_mod_cast hr)]]
  rw [Real.sqrt_le_sqrt_iff (by positivity)]
  constructor
  · intro h
    exact_mod_cast (by push_cast at h ⊢; exact h : ((getDistanceSq x1 y1 x2 y2 : ℚ) : ℝ) ≤ ((r ^ 2 : ℚ) : ℝ))
  · intro h
    exact_mod_cast h

/-- Strict version of getDistance_le_iff, for the click threshold. -/
lemma getDistance_lt_iff {x1 y1 x2 y2 r : ℚ} (hr : 0 ≤ r) :
    getDistance x1 y1 x2 y2 < (r : ℝ) ↔ getDistanceSq x1 y1 x2 y2 < r ^ 2 := by
  have h1 := @getDistance_le_iff x1 y1 x2 y2 r hr
  have h2 : (r : ℝ) ≤ getDistance x1 y1 x2 y2 ↔ (r ^ 2 : ℚ) ≤ getDistanceSq x1 y1 x2 y2 := by
    rw [getDistance, show ((r : ℚ) : ℝ) = Real.sqrt ((r : ℝ) ^ 2) by
      rw [Real.sqrt_sq (by exact_mod_cast hr)]]
    rw [Real.sqrt_le_sqrt_iff (by exact_mod_cast getDistanceSq_nonneg x1 y1 x2 y2)]
    constructor
    · intro h
      exact_mod_cast (by push_cast at h ⊢; exact h :
        ((r ^ 2 : ℚ) : ℝ) ≤ ((getDistanceSq x1 y1 x2 y2 : ℚ) : ℝ))
    · intro h
      exact_mod_cast h
  constructor
  · intro h
    by_contra hc
    exact absurd (h2.mpr (not_lt.mp hc)) (not_le.mpr h)
  · intro h
    by_contra hc
    exact absurd (h2.mp (not_lt.mp hc)) (not_le.mpr h)

/-- Strict comparison in the other direction, for the drag threshold. -/
lemma lt_getDistance_iff {x1 y1 x2 y2 r : ℚ} (hr : 0 ≤ r) :
    (r : ℝ) < getDistance x1 y1 x2 y2 ↔ r ^ 2 < getDistanceSq x1 y1 x2 y2 := by
  rw [← not_le, ← not_le, not_iff_not]
  exact getDistance_le_iff hr

/-- isPointInCircle from geometry.ts: getDistance(px,py,cx,cy) <= radius. -/
def isPointInCircle (px py cx cy radius : ℚ) : Bool :=
  decide (getDistanceSq px py cx cy ≤ radius ^ 2)

/-- isPointInRect from geometry.ts: sign-normalizes the rectangle and then
tests inclusive bounds on all four sides. -/
def isPointInRect (px py rx ry rw rh : ℚ) : Bool :=
  let x := if rw ≥ 0 then rx else rx + rw
  let y := if rh ≥ 0 then ry else ry + rh
  let w := |rw|
  let h := |rh|
  decide (px ≥ x ∧ px ≤ x + w ∧ py ≥ y ∧ py ≤ y + h)

/-- hitTestShape from geometry.ts. -/
def hitTestShape (shape : Shape) (x y : ℚ) : Bool :=
  match shape.type with
  | ShapeType.point => isPointInCircle x y shape.x shape.y POINT_HIT_RADIUS
  | ShapeType.rectangle => isPointInRect x y shape.x shape.y shape.width shape.height

/-- The rendering comparator of sortShapesForRendering as a boolean
less-or-equal: true exactly when the source comparator returns a value
at most 0 on (a, b) (point vs rectangle gives 1, rectangle vs point -1,
otherwise a.createdAt - b.createdAt). -/
def renderCompareLe (a b : Shape) : Bool :=
  match a.type, b.type with
  | ShapeType.point, ShapeType.rectangle => false
  | ShapeType.rectangle, ShapeType.point => true
  | _, _ => decide (a.createdAt ≤ b.createdAt)

/-- The hit-test comparator of sortShapesForHitTest as a boolean
less-or-equal: point vs rectangle gives -1, rectangle vs point 1,
otherwise b.createdAt - a.createdAt (newer first). -/
def hitTestCompareLe (a b : Shape) : Bool :=
  match a.type, b.type with
  | ShapeType.point, ShapeType.rectangle => true
  | ShapeType.rectangle, ShapeType.point => false
  | _, _ => decide (b.createdAt ≤ a.createdAt)

/-- sortShapesForRendering from geometry.ts.  The source copies the array
and calls Array.prototype.sort with a consistent comparator; ECMAScript
guarantees the result is a stable sort by that comparator, which mergeSort
models. -/
def sortShapesForRendering (shapes : List Shape) : List Shape :=
  shapes.mergeSort renderCompareLe

/-- sortShapesForHitTest from geometry.ts. -/
def sortShapesForHitTest (shapes : List Shape) : List Shape :=
  shapes.mergeSort hitTestCompareLe

/-- JavaScript Math.round: round half toward positive infinity. -/
def jsRound (q : ℚ) : ℤ := ⌊q + 1 / 2⌋

/-- isSquare from geometry.ts: Math.round(Math.abs(width)) ===
Math.round(Math.abs(height)). -/
def isSquare (width height : ℚ) : Bool :=
  decide (jsRound |width| = jsRound |height|)

/-- Corner coordinates returned by getResizeHandles from geometry.ts,
computed from the sign-normalized rectangle. -/
structure ResizeHandles where
  tlx : ℚ
  tly : ℚ
  trx : ℚ
  try' : ℚ
  blx : ℚ
  bly : ℚ
  brx : ℚ
  bry : ℚ
deriving DecidableEq

/-- getResizeHandles from geometry.ts. -/
def getResizeHandles (rect : Shape) : ResizeHandles :=
  let normX := if rect.width ≥ 0 then rect.x else rect.x + rect.width
  let normY := if rect.height ≥ 0 then rect.y else rect.y + rect.height
  let w := |rect.width|
  let h := |rect.height|
  { tlx := normX, tly := normY,
    trx := normX + w, try' := normY,
    blx := normX, bly := normY + h,
    brx := normX + w, bry := normY + h }

/-- hitTestResizeHandle from geometry.ts: tests the four handles with the
handle radius, in the fixed precedence order tl, tr, bl, br. -/
def hitTestResizeHandle (rect : Shape) (x y : ℚ) : Option Corner :=
  let handles := getResizeHandles rect
  let radius := RESIZE_HANDLE_SIZE
  if isPointInCircle x y handles.tlx handles.tly radius then some Corner.tl
  else if isPointInCircle x y handles.trx handles.try' radius then some Corner.tr
  else if isPointInCircle x y handles.blx handles.bly radius then some Corner.bl
  else if isPointInCircle x y handles.brx handles.bry radius then some Corner.br
  else none

/-! ## History store (app/hooks/useHistory.ts) -/

/-- The state held by the useHistory hook. -/
structure HistoryState (T : Type) where
  past : List T
  present : T
  future : List T
deriving DecidableEq

namespace HistoryState

variable {T : Type}

/-- canUndo from useHistory.ts: state.past.length > 0. -/
def canUndo (s : HistoryState T) : Bool := decide (s.past.length > 0)

/-- canRedo from useHistory.ts: state.future.length > 0. -/
def canRedo (s : HistoryState T) : Bool := decide (s.future.length > 0)

/-- undo from useHistory.ts: no-op on empty past, otherwise pops the last
element of past into present and pushes the old present on the front of
future. -/
def undo (s : HistoryState T) : HistoryState T :=
  match s.past.getLast? with
  | none => s
  | some previous =>
    { past := s.past.dropLast, present := previous, future := s.present :: s.future }

/-- redo from useHistory.ts: no-op on empty future, otherwise shifts the
first element of future into present and appends the old present to past. -/
def redo (s : HistoryState T) : HistoryState T :=
  match s.future with
  | [] => s
  | next :: rest =>
    { past := s.past ++ [s.present], present := next, future := rest }

/-- set from useHistory.ts.  The source no-ops when
JSON.stringify(present) === JSON.stringify(newPresent); for the values this
program stores (arrays of records built with a fixed key order and exact
numeric fields) stringify equality coincides with structural equality,
which the embedding's decidable equality models.  Otherwise the old present
is pushed onto past and future is cleared. -/
def set [DecidableEq T] (s : HistoryState T) (newPresent : T) : HistoryState T :=
  if s.present = newPresent then s
  else { past := s.past ++ [s.present], present := newPresent, future := [] }

/-- updateTransient from useHistory.ts: replaces present, nothing else. -/
def updateTransient (s : HistoryState T) (val : T) : HistoryState T :=
  { s with present := val }

end HistoryState

/-- A sequence of committed set calls, oldest first. -/
def applySets {T : Type} [DecidableEq T] (s : HistoryState T) (vs : List T) : HistoryState T :=
  vs.foldl HistoryState.set s

/-! ## Interaction state machine (the Canvas component's pointer handlers)

The component-local React state of the Canvas component, the container's
history store and the selection are combined into one World record; each
pointer handler becomes a pure transition function on it.  onShapesChange
is the container's handleShapesChange: transient updates go through
updateTransient, committed updates through set. -/

/-- The Canvas component's useState fields that drive the gesture logic. -/
structure InteractionState where
  isDragging : Bool
  interactionStart : Option (ℚ × ℚ)
  activeShapeId : Option Nat
  hoveredShapeId : Option Nat
  isResizing : Bool
  resizeCorner : Option Corner
  initialShapeState : Option Shape
deriving DecidableEq

/-- The initial (idle) interaction state. -/
def InteractionState.initial : InteractionState :=
  { isDragging := false, interactionStart := none, activeShapeId := none,
    hoveredShapeId := none, isResizing := false, resizeCorner := none,
    initialShapeState := none }

/-- The combined state of CanvasContainer (history of the shape array plus
selection) and the Canvas interaction state; nextId is the supply of fresh
shape ids (crypto.randomUUID in the source). -/
structure World where
  hist : HistoryState (List Shape)
  selectedId : Option Nat
  inter : InteractionState
  nextId : Nat
deriving DecidableEq

/-- The shapes prop of the Canvas component: the history store's present. -/
def World.shapes (w : World) : List Shape := w.hist.present

/-- handleShapesChange from CanvasContainer.tsx: transient updates call
updateTransient, committed ones call set. -/
def onShapesChange (w : World) (newShapes : List Shape) (isTransient : Bool) : World :=
  if isTransient then { w with hist := w.hist.updateTransient newShapes }
  else { w with hist := w.hist.set newShapes }

/-- handlePointerDown from the Canvas component, strict priority order:
resize-handle hit on the selected rectangle, then topmost shape hit in
hit-test order, then pending creation (clear selection, record the start
point only). -/
def handlePointerDown (w : World) (offsetX offsetY : ℚ) : World :=
  let resizeStep : Option World :=
    match w.selectedId with
    | some sid =>
      match w.shapes.find? (fun s => s.id == sid) with
      | some selectedShape =>
        if selectedShape.type = ShapeType.rectangle then
          match hitTestResizeHandle selectedShape offsetX offsetY with
          | some handle =>
            some { w with inter :=
              { w.inter with
                isResizing := true, resizeCorner := some handle,
                interactionStart := some (offsetX, offsetY),
                activeShapeId := some sid,
                initialShapeState := some selectedShape } }
          | none => none
        else none
      | none => none
    | none => none
  match resizeStep with
  | some w' => w'
  | none =>
    let hitCandidates := sortShapesForHitTest w.shapes
    match hitCandidates.find? (fun s => hitTestShape s offsetX offsetY) with
    | some hitShape =>
      { w with selectedId := some hitShape.id, inter :=
        { w.inter with
          isDragging := true,
          interactionStart := some (offsetX, offsetY),
          activeShapeId := some hitShape.id,
          initialShapeState := some hitShape } }
    | none =>
      { w with selectedId := none, inter :=
        { w.inter with
          isDragging := false, activeShapeId := none,
          initialShapeState := none,
          interactionStart := some (offsetX, offsetY) } }

/-- The four finals computed by the anchor-preserving resize logic in
handlePointerMove. -/
structure ResizeResult where
  finalX : ℚ
  finalY : ℚ
  finalW : ℚ
  finalH : ℚ
deriving DecidableEq

/-- The fixed anchor abscissa of the resize logic: the x of the corner of
the sign-normalized initial rectangle diagonally opposite the dragged one. -/
def anchorX (r : Shape) (corner : Corner) : ℚ :=
  let initX := if r.width ≥ 0 then r.x else r.x + r.width
  let initW := |r.width|
  match corner with
  | Corner.tl => initX + initW
  | Corner.tr => initX
  | Corner.bl => initX + initW
  | Corner.br => initX

/-- The fixed anchor ordinate of the resize logic. -/
def anchorY (r : Shape) (corner : Corner) : ℚ :=
  let initY := if r.height ≥ 0 then r.y else r.y + r.height
  let initH := |r.height|
  match corner with
  | Corner.tl => initY + initH
  | Corner.tr => initY + initH
  | Corner.bl => initY
  | Corner.br => initY

/-- The initial abscissa of the dragged handle. -/
def startHandleX (r : Shape) (corner : Corner) : ℚ :=
  let initX := if r.width ≥ 0 then r.x else r.x + r.width
  let initW := |r.width|
  match corner with
  | Corner.tl => initX
  | Corner.tr => initX + initW
  | Corner.bl => initX
  | Corner.br => initX + initW

/-- The initial ordinate of the dragged handle. -/
def startHandleY (r : Shape) (corner : Corner) : ℚ :=
  let initY := if r.height ≥ 0 then r.y else r.y + r.height
  let initH := |r.height|
  match corner with
  | Corner.tl => initY
  | Corner.tr => initY
  | Corner.bl => initY + initH
  | Corner.br => initY + initH

/-- The resize step of handlePointerMove (steps 3 to 6 of the source's
anchor-point approach): new handle position, raw dimensions relative to the
anchor, optional square constraint under shiftKey, final normalization. -/
def resizeFinal (r : Shape) (corner : Corner) (dx dy : ℚ) (shiftKey : Bool) : ResizeResult :=
  let ax := anchorX r corner
  let ay := anchorY r corner
  let currentHandleX := startHandleX r corner + dx
  let currentHandleY := startHandleY r corner + dy
  let rawW := currentHandleX - ax
  let rawH := currentHandleY - ay
  let size := max |rawW| |rawH|
  let signW : ℚ := if rawW < 0 then -1 else 1
  let signH : ℚ := if rawH < 0 then -1 else 1
  let rawNewW := if shiftKey then size * signW else rawW
  let rawNewH := if shiftKey then size * signH else rawH
  { finalX := if rawNewW < 0 then ax + rawNewW else ax,
    finalY := if rawNewH < 0 then ay + rawNewH else ay,
    finalW := |rawNewW|,
    finalH := |rawNewH| }

/-- The per-shape callback of the shapes.map call in handlePointerMove's
modifying branch: untouched unless the shape is the active one; then the
resize branch (guarded by isResizing, a recorded corner and a rectangle
snapshot), else the move branch (guarded by isDragging), else the
creation-resize branch. -/
def moveShapeUpdate (activeShapeId : Nat) (initialShapeState : Shape)
    (isResizing : Bool) (resizeCorner : Option Corner) (isDragging : Bool)
    (dx dy offsetX offsetY : ℚ) (shiftKey : Bool) (s : Shape) : Shape :=
  if s.id ≠ activeShapeId then s
  else
    match isResizing, resizeCorner, initialShapeState.type with
    | true, some corner, ShapeType.rectangle =>
      let res := resizeFinal initialShapeState corner dx dy shiftKey
      { s with x := res.finalX, y := res.finalY, width := res.finalW, height := res.finalH }
    | _, _, _ =>
      if isDragging then
        { s with x := initialShapeState.x + dx, y := initialShapeState.y + dy }
      else
        if initialShapeState.type ≠ ShapeType.rectangle then s
        else
          let width0 := offsetX - initialShapeState.x
          let height0 := offsetY - initialShapeState.y
          let size := max |width0| |height0|
          let width := if shiftKey then (if width0 < 0 then (-1 : ℚ) else 1) * size else width0
          let height := if shiftKey then (if height0 < 0 then (-1 : ℚ) else 1) * size else height0
          { s with width := width, height := height }

/-- handlePointerMove from the Canvas component (now is the Date.now()
timestamp the environment would supply to a shape created by this event).
Hover feedback when no interaction is in progress; otherwise threshold-gated
rectangle creation in pending-creation, or the per-shape modification map
emitted as a transient update. -/
def handlePointerMove (w : World) (offsetX offsetY : ℚ) (shiftKey : Bool) (now : ℚ) : World :=
  match w.inter.interactionStart with
  | none =>
    let hitCandidates := sortShapesForHitTest w.shapes
    let hitShape := hitCandidates.find? (fun s => hitTestShape s offsetX offsetY)
    { w with inter := { w.inter with hoveredShapeId := hitShape.map Shape.id } }
  | some start =>
    let dx := offsetX - start.1
    let dy := offsetY - start.2
    match w.inter.activeShapeId, w.inter.initialShapeState with
    | none, none =>
      if getDistanceSq offsetX offsetY start.1 start.2 > 5 ^ 2 then
        let newId := w.nextId
        let newRect : Shape :=
          { id := newId, type := ShapeType.rectangle, x := start.1, y := start.2,
            width := dx, height := dy, createdAt := now }
        let w1 := onShapesChange w (w.shapes ++ [newRect]) true
        { w1 with selectedId := some newId, nextId := w.nextId + 1, inter :=
          { w1.inter with
            activeShapeId := some newId,
            initialShapeState := some newRect } }
      else w
    | some aid, some init =>
      let currentShapes := w.shapes.map
        (moveShapeUpdate aid init w.inter.isResizing w.inter.resizeCorner
          w.inter.isDragging dx dy offsetX offsetY shiftKey)
      onShapesChange w currentShapes true
    | _, _ => w

/-- handlePointerUp from the Canvas component: a sub-threshold click with no
active shape commits a new Point at the up coordinates; an active shape
re-commits the current shape collection; all ephemeral interaction fields
are reset in every branch. -/
def handlePointerUp (w : World) (offsetX offsetY : ℚ) (now : ℚ) : World :=
  let w1 :=
    match w.inter.interactionStart, w.inter.activeShapeId with
    | some start, none =>
      if getDistanceSq offsetX offsetY start.1 start.2 < 5 ^ 2 then
        let newPoint : Shape :=
          { id := w.nextId, type := ShapeType.point, x := offsetX, y := offsetY,
            width := 0, height := 0, createdAt := now }
        { onShapesChange w (w.shapes ++ [newPoint]) false with nextId := w.nextId + 1 }
      else w
    | _, some _ => onShapesChange w w.shapes false
    | _, _ => w
  { w1 with inter :=
    { w1.inter with
      interactionStart := none, activeShapeId := none,
      initialShapeState := none, isDragging := false, isResizing := false,
      resizeCorner := none } }

/-- The empty-canvas starting world: empty history, nothing selected, idle
interaction state. -/
def emptyWorld : World :=
  { hist := { past := [], present := [], future := [] },
    selectedId := none, inter := InteractionState.initial, nextId := 0 }

/-! ## Theorems about the history store -/

/-- C9: for every history state and every value, updateTransient replaces
present with the value and leaves past and future unchanged; in particular
canUndo and canRedo are identical before and after the call. -/
theorem updateTransient_frame {T : Type} (s : HistoryState T) (v : T) :
    (s.updateTransient v).present = v ∧
    (s.updateTransient v).past = s.past ∧
    (s.updateTransient v).future = s.future ∧
    (s.updateTransient v).canUndo = s.canUndo ∧
    (s.updateTransient v).canRedo = s.canRedo :=
  ⟨rfl, rfl, rfl, rfl, rfl⟩

/-- C3: for every history state and every value x structurally equal to the
current present, set x is a no-op: the state is returned unchanged, so past
does not grow and present, future, canUndo and canRedo are unchanged. -/
theorem set_equal_noop {T : Type} [DecidableEq T] (s : HistoryState T) (x : T)
    (hx : x = s.present) :
    s.set x = s ∧ (s.set x).past = s.past ∧ (s.set x).present = s.present ∧
    (s.set x).future = s.future ∧ (s.set x).canUndo = s.canUndo ∧
    (s.set x).canRedo = s.canRedo := by
  have h : s.set x = s := by
    simp [HistoryState.set, hx]
  exact ⟨h, by rw [h], by rw [h], by rw [h], by rw [h], by rw [h]⟩

/-- Witness for C3 at a concrete history state over naturals. -/
theorem set_equal_noop_witness :
    ((⟨[1], 2, [3]⟩ : HistoryState ℕ).set 2).past = [1] :=
  (set_equal_noop (⟨[1], 2, [3]⟩ : HistoryState ℕ) 2 rfl).2.1

/-- C4 fails as stated: from past = [0], present = 1, future = [], one undo
restores present 0 with future [1]; set 0 then equals the present, is
deduplicated, and leaves future nonempty, so canRedo is true, not false. -/
theorem undo_set_redoable_counterexample :
    (((⟨[0], 1, []⟩ : HistoryState ℕ).undo).set 0).canRedo = true := by
  decide

/-- C4 amended: for every history state with non-empty past and every
newValue that is not structurally equal to the present restored by the
undo, calling undo() and then set(newValue) leaves canRedo false (future is
cleared) — even when newValue equals a previously-redoable value; when
newValue equals the restored present, the set is deduplicated and canRedo
stays true. -/
theorem undo_set_clears_future {T : Type} [DecidableEq T] (s : HistoryState T)
    (_hpast : s.past ≠ []) (v : T) (hv : v ≠ s.undo.present) :
    (s.undo.set v).canRedo = false := by
  have h : ¬ s.undo.present = v := fun h => hv h.symm
  simp [HistoryState.set, h, HistoryState.canRedo]

/-- Witness for the amended C4 at a concrete history state over naturals. -/
theorem undo_set_clears_future_witness :
    (((⟨[0], 1, []⟩ : HistoryState ℕ).undo).set 2).canRedo = false :=
  undo_set_clears_future (⟨[0], 1, []⟩ : HistoryState ℕ) (by decide) 2 (by decide)

/-- A set with a genuinely new value pushes the old present onto past and
clears future. -/
lemma HistoryState.set_push {T : Type} [DecidableEq T] (s : HistoryState T) (v : T)
    (hv : s.present ≠ v) :
    s.set v = ⟨s.past ++ [s.present], v, []⟩ := by
  simp [HistoryState.set, hv]

/-- Characterization of a run of committed sets with adjacent-distinct
values starting from an empty future: the whole trace but its last element
ends up in past, the last value is present, future stays empty. -/
lemma applySets_chain {T : Type} [DecidableEq T] :
    ∀ (vs : List T) (p : List T) (x : T), List.Chain' (· ≠ ·) (x :: vs) →
      applySets (⟨p, x, []⟩ : HistoryState T) vs =
        ⟨p ++ (x :: vs).dropLast, (x :: vs).getLast (List.cons_ne_nil x vs), []⟩
  | [], p, x, _ => by simp [applySets]
  | v :: rest, p, x, h => by
    have hxv : x ≠ v := (List.chain'_cons.mp h).1
    have hrest : List.Chain' (· ≠ ·) (v :: rest) := (List.chain'_cons.mp h).2
    have hstep : (⟨p, x, []⟩ : HistoryState T).set v = ⟨p ++ [x], v, []⟩ :=
      HistoryState.set_push _ _ hxv
    have hfold : applySets (⟨p, x, []⟩ : HistoryState T) (v :: rest) =
        applySets (⟨p ++ [x], v, []⟩ : HistoryState T) rest := by
      simp [applySets, hstep]
    rw [hfold, applySets_chain rest (p ++ [x]) v hrest]
    have hdrop : (x :: v :: rest).dropLast = x :: (v :: rest).dropLast := rfl
    have hlast : (x :: v :: rest).getLast (List.cons_ne_nil _ _) =
        (v :: rest).getLast (List.cons_ne_nil v rest) := List.getLast_cons _
    rw [hdrop, hlast]
    simp

/-- Characterization of iterated undo: undoing as many times as there are
entries in the past suffix q pops exactly q, moving the popped values and
the old present to the front of future. -/
lemma iterate_undo_append {T : Type} (q : List T) :
    ∀ (p : List T) (y : T) (f : List T),
      HistoryState.undo^[q.length] (⟨p ++ q, y, f⟩ : HistoryState T) =
        ⟨p, (q ++ [y]).headD y, (q ++ [y]).tail ++ f⟩ := by
  induction q using List.reverseRecOn with
  | nil => intro p y f; simp
  | append_singleton q' z ih =>
    intro p y f
    have hlen : (q' ++ [z]).length = q'.length + 1 := by simp
    rw [hlen, Function.iterate_succ_apply]
    have hundo : HistoryState.undo (⟨p ++ (q' ++ [z]), y, f⟩ : HistoryState T)
        = ⟨p ++ q', z, y :: f⟩ := by
      rw [← List.append_assoc]
      simp [HistoryState.undo, List.getLast?_concat]
    rw [hundo, ih]
    cases q' with
    | nil => simp
    | cons a t => simp

/-- C5 fails as literally stated for the empty sequence of set calls: after
zero sets from a fresh initial state, canUndo is false, not true (zero
undos do restore the initial value, but the canUndo conjunct fails). -/
theorem sets_undos_empty_counterexample :
    (applySets (⟨[], 0, []⟩ : HistoryState ℕ) []).canUndo = false := by
  decide

/-- C5 amended: for every initial value and every nonempty sequence of set
calls with pairwise distinct values also distinct from the initial value,
canUndo is true after the sets, and exactly as many undo calls as there
were sets restore present to the initial value (no smaller number of undos
does). -/
theorem sets_then_undos {T : Type} [DecidableEq T] (init : T) (vs : List T)
    (hne : vs ≠ []) (hdist : (init :: vs).Pairwise (· ≠ ·)) :
    (applySets (⟨[], init, []⟩ : HistoryState T) vs).canUndo = true ∧
    (HistoryState.undo^[vs.length]
      (applySets (⟨[], init, []⟩ : HistoryState T) vs)).present = init ∧
    ∀ k, k < vs.length →
      (HistoryState.undo^[k]
        (applySets (⟨[], init, []⟩ : HistoryState T) vs)).present ≠ init := by
  have hchain : List.Chain' (· ≠ ·) (init :: vs) := hdist.chain'
  have hsets := applySets_chain vs [] init hchain
  rw [List.nil_append] at hsets
  set trace := init :: vs with htrace
  set P := trace.dropLast with hP
  set y := trace.getLast (List.cons_ne_nil init vs) with hy
  have hPy : P ++ [y] = trace := List.dropLast_append_getLast _
  have hPlen : P.length = vs.length := by
    have := congrArg List.length hPy
    simp [htrace] at this
    omega
  have hvslen : 0 < vs.length := List.length_pos.mpr hne
  -- present after k undos, for any k up to the number of sets
  have hpresent : ∀ k, k ≤ vs.length →
      (HistoryState.undo^[k]
        (applySets (⟨[], init, []⟩ : HistoryState T) vs)).present =
        (trace.drop (vs.length - k)).headD y := by
    intro k hk
    have hkP : vs.length - k ≤ P.length := by omega
    have hsplit : P.take (vs.length - k) ++ P.drop (vs.length - k) = P :=
      List.take_append_drop _ _
    have hBlen : (P.drop (vs.length - k)).length = k := by
      rw [List.length_drop]
      omega
    have hiter := iterate_undo_append (P.drop (vs.length - k))
      (P.take (vs.length - k)) y []
    rw [hBlen, hsplit] at hiter
    rw [hsets, hiter]
    have hdropPy : P.drop (vs.length - k) ++ [y] = trace.drop (vs.length - k) := by
      rw [← hPy, List.drop_append_of_le_length hkP]
    rw [hdropPy]
  refine ⟨?_, ?_, ?_⟩
  · rw [hsets]
    have : P.length > 0 := by omega
    simpa [HistoryState.canUndo] using this
  · have h := hpresent vs.length (le_refl _)
    rw [h]
    simp [htrace]
  · intro k hk
    have h := hpresent k (le_of_lt hk)
    rw [h]
    have hj : vs.length - k = (vs.length - k - 1) + 1 := by omega
    have hdropcons : trace.drop (vs.length - k) = vs.drop (vs.length - k - 1) := by
      rw [htrace, hj]
      exact List.drop_succ_cons
    rw [hdropcons]
    have hlen2 : 0 < (vs.drop (vs.length - k - 1)).length := by
      rw [List.length_drop]
      omega
    obtain ⟨a, t, hat⟩ := List.exists_cons_of_ne_nil
      (List.ne_nil_of_length_pos hlen2)
    rw [hat]
    have ha : a ∈ vs := by
      have : a ∈ vs.drop (vs.length - k - 1) := by
        rw [hat]
        exact List.mem_cons_self a t
      exact List.mem_of_mem_drop this
    have hinit : init ≠ a := (List.pairwise_cons.mp hdist).1 a ha
    simpa using hinit.symm

/-- Witness for the amended C5: two distinct sets from initial 0 over the
naturals, then two undos restore 0; one undo does not. -/
theorem sets_then_undos_witness :
    (applySets (⟨[], 0, []⟩ : HistoryState ℕ) [1, 2]).canUndo = true ∧
    (HistoryState.undo^[2]
      (applySets (⟨[], 0, []⟩ : HistoryState ℕ) [1, 2])).present = 0 ∧
    (HistoryState.undo^[1]
      (applySets (⟨[], 0, []⟩ : HistoryState ℕ) [1, 2])).present ≠ 0 := by
  have h := sets_then_undos 0 [1, 2] (by decide) (by decide)
  exact ⟨h.1, h.2.1, h.2.2 1 (by decide)⟩

/-! ## Theorems about the resize step -/

/-- Final normalization keeps the anchor at a corner of the result: the
normalized origin is the anchor itself when the raw extent is nonnegative,
and origin plus absolute extent is the anchor when it is negative. -/
lemma normalize_keeps_anchor (a raw : ℚ) :
    (if raw < 0 then a + raw else a) = a ∨
    (if raw < 0 then a + raw else a) + |raw| = a := by
  rcases lt_or_le raw 0 with h | h
  · right
    rw [if_pos h, abs_of_neg h]
    ring
  · left
    rw [if_neg (not_lt.mpr h)]

/-- The sign factors used by the square constraint have absolute value 1. -/
lemma abs_sign_factor (q : ℚ) : |(if q < 0 then (-1 : ℚ) else 1)| = 1 := by
  split_ifs <;> simp

/-- C1: for every initial rectangle, every dragged corner and every pointer
delta, the resize step leaves the anchor corner (the corner of the
sign-normalized initial rectangle diagonally opposite the dragged one) at
a corner of the resulting rectangle, i.e. at its original absolute
position, also when the raw new width or height is negative (the handle
crossed past the anchor); and with shiftKey held the result satisfies
abs(width) = abs(height). -/
theorem resize_anchor_preserved (r : Shape) (corner : Corner) (dx dy : ℚ) (shiftKey : Bool) :
    ((resizeFinal r corner dx dy shiftKey).finalX = anchorX r corner ∨
      (resizeFinal r corner dx dy shiftKey).finalX +
        (resizeFinal r corner dx dy shiftKey).finalW = anchorX r corner) ∧
    ((resizeFinal r corner dx dy shiftKey).finalY = anchorY r corner ∨
      (resizeFinal r corner dx dy shiftKey).finalY +
        (resizeFinal r corner dx dy shiftKey).finalH = anchorY r corner) ∧
    |(resizeFinal r corner dx dy true).finalW| =
      |(resizeFinal r corner dx dy true).finalH| := by
  refine ⟨?_, ?_, ?_⟩
  · simp only [resizeFinal]
    exact normalize_keeps_anchor _ _
  · simp only [resizeFinal]
    exact normalize_keeps_anchor _ _
  · simp only [resizeFinal, if_true, abs_abs]
    rw [abs_mul, abs_mul, abs_sign_factor, abs_sign_factor]

/-- C10: the per-shape transformation applied by a pointer-move transient
update during an active move, resize, or creation gesture leaves every
shape other than the active one unchanged and preserves the active shape's
id, type and createdAt in every branch; when the gesture is a move (the
machine is dragging and not resizing) it additionally preserves width and
height, changing only x and y. -/
theorem moveShapeUpdate_frame (aid : Nat) (init : Shape) (isRes : Bool)
    (rc : Option Corner) (isDrag : Bool) (dx dy ox oy : ℚ) (shift : Bool) (s : Shape) :
    (s.id ≠ aid → moveShapeUpdate aid init isRes rc isDrag dx dy ox oy shift s = s) ∧
    (moveShapeUpdate aid init isRes rc isDrag dx dy ox oy shift s).id = s.id ∧
    (moveShapeUpdate aid init isRes rc isDrag dx dy ox oy shift s).type = s.type ∧
    (moveShapeUpdate aid init isRes rc isDrag dx dy ox oy shift s).createdAt = s.createdAt ∧
    (isDrag = true → isRes = false →
      (moveShapeUpdate aid init isRes rc isDrag dx dy ox oy shift s).width = s.width ∧
      (moveShapeUpdate aid init isRes rc isDrag dx dy ox oy shift s).height = s.height) := by
  by_cases hid : s.id ≠ aid
  · simp [moveShapeUpdate, hid]
  · rw [not_ne_iff] at hid
    cases isRes <;> rcases rc with _ | c <;> cases htype : init.type <;> cases isDrag <;>
      simp [moveShapeUpdate, hid, htype]

/-- Witness for C10: a concrete inactive point is untouched, and a concrete
active shape dragged in move mode keeps its width. -/
theorem moveShapeUpdate_frame_witness :
    moveShapeUpdate 2 ⟨0, ShapeType.rectangle, 0, 0, 4, 4, 0⟩ false none true 1 2 5 5 false
        ⟨1, ShapeType.point, 3, 3, 0, 0, 0⟩ = ⟨1, ShapeType.point, 3, 3, 0, 0, 0⟩ ∧
    (moveShapeUpdate 2 ⟨0, ShapeType.rectangle, 0, 0, 4, 4, 0⟩ false none true 1 2 5 5 false
        ⟨2, ShapeType.rectangle, 3, 3, 7, 8, 0⟩).width =
      (⟨2, ShapeType.rectangle, 3, 3, 7, 8, 0⟩ : Shape).width :=
  ⟨(moveShapeUpdate_frame 2 ⟨0, ShapeType.rectangle, 0, 0, 4, 4, 0⟩ false none true 1 2 5 5 false
      ⟨1, ShapeType.point, 3, 3, 0, 0, 0⟩).1 (by decide),
   ((moveShapeUpdate_frame 2 ⟨0, ShapeType.rectangle, 0, 0, 4, 4, 0⟩ false none true 1 2 5 5 false
      ⟨2, ShapeType.rectangle, 3, 3, 7, 8, 0⟩).2.2.2.2 rfl rfl).1⟩

/-! ## Theorems about the two sort orders -/

/-- Rendering priority rank of a variant: rectangles sort before points. -/
def typeRank : ShapeType → Nat
  | ShapeType.rectangle => 0
  | ShapeType.point => 1

/-- The rendering comparator is the lexicographic order on (variant rank,
createdAt). -/
lemma renderCompareLe_iff (a b : Shape) : renderCompareLe a b = true ↔
    (typeRank a.type < typeRank b.type ∨
      (a.type = b.type ∧ a.createdAt ≤ b.createdAt)) := by
  cases ha : a.type <;> cases hb : b.type <;> simp [renderCompareLe, typeRank, ha, hb]

/-- The hit-test comparator is the lexicographic order on (inverse variant
rank, inverse createdAt). -/
lemma hitTestCompareLe_iff (a b : Shape) : hitTestCompareLe a b = true ↔
    (typeRank b.type < typeRank a.type ∨
      (a.type = b.type ∧ b.createdAt ≤ a.createdAt)) := by
  cases ha : a.type <;> cases hb : b.type <;> simp [hitTestCompareLe, typeRank, ha, hb]

lemma renderCompareLe_trans : ∀ (a b c : Shape),
    renderCompareLe a b → renderCompareLe b c → renderCompareLe a c := by
  intro a b c hab hbc
  rw [renderCompareLe_iff] at hab hbc ⊢
  rcases hab with h1 | ⟨h1, h1'⟩ <;> rcases hbc with h2 | ⟨h2, h2'⟩
  · exact Or.inl (lt_trans h1 h2)
  · exact Or.inl (h2 ▸ h1)
  · exact Or.inl (h1 ▸ h2)
  · exact Or.inr ⟨h1.trans h2, le_trans h1' h2'⟩

lemma renderCompareLe_total : ∀ (a b : Shape),
    renderCompareLe a b || renderCompareLe b a := by
  intro a b
  rw [Bool.or_eq_true, renderCompareLe_iff, renderCompareLe_iff]
  cases ha : a.type <;> cases hb : b.type <;> simp [typeRank, ha, hb]
  · exact le_total _ _
  · exact le_total _ _

lemma hitTestCompareLe_trans : ∀ (a b c : Shape),
    hitTestCompareLe a b → hitTestCompareLe b c → hitTestCompareLe a c := by
  intro a b c hab hbc
  rw [hitTestCompareLe_iff] at hab hbc ⊢
  rcases hab with h1 | ⟨h1, h1'⟩ <;> rcases hbc with h2 | ⟨h2, h2'⟩
  · exact Or.inl (lt_trans h2 h1)
  · exact Or.inl (h2 ▸ h1)
  · exact Or.inl (h1 ▸ h2)
  · exact Or.inr ⟨h1.trans h2, le_trans h2' h1'⟩

lemma hitTestCompareLe_total : ∀ (a b : Shape),
    hitTestCompareLe a b || hitTestCompareLe b a := by
  intro a b
  rw [Bool.or_eq_true, hitTestCompareLe_iff, hitTestCompareLe_iff]
  cases ha : a.type <;> cases hb : b.type <;> simp [typeRank, ha, hb]
  · exact le_total _ _
  · exact le_total _ _

/-- C7: sortShapesForRendering returns a permutation of its input in which
every Point comes after every Rectangle regardless of createdAt and shapes
of the same variant are in ascending createdAt order, while
sortShapesForHitTest returns a permutation applying the inverse priority:
every Point before every Rectangle, and same-variant shapes in descending
createdAt order. -/
theorem sortShapes_order (l : List Shape) :
    (sortShapesForRendering l).Perm l ∧
    (sortShapesForRendering l).Pairwise (fun a b =>
      (a.type = ShapeType.point → b.type = ShapeType.point) ∧
      (a.type = b.type → a.createdAt ≤ b.createdAt)) ∧
    (sortShapesForHitTest l).Perm l ∧
    (sortShapesForHitTest l).Pairwise (fun a b =>
      (a.type = ShapeType.rectangle → b.type = ShapeType.rectangle) ∧
      (a.type = b.type → b.createdAt ≤ a.createdAt)) := by
  refine ⟨List.mergeSort_perm l _, ?_, List.mergeSort_perm l _, ?_⟩
  · have hs := List.sorted_mergeSort renderCompareLe_trans renderCompareLe_total l
    refine hs.imp ?_
    intro a b h
    rw [renderCompareLe_iff] at h
    constructor
    · intro hp
      rcases h with h | ⟨h, _⟩
      · cases hb : b.type
        · rfl
        · rw [hp, hb] at h
          simp [typeRank] at h
      · rw [← h, hp]
    · intro ht
      rcases h with h | ⟨_, h'⟩
      · rw [ht] at h
        exact absurd h (lt_irrefl _)
      · exact h'
  · have hs := List.sorted_mergeSort hitTestCompareLe_trans hitTestCompareLe_total l
    refine hs.imp ?_
    intro a b h
    rw [hitTestCompareLe_iff] at h
    constructor
    · intro hp
      rcases h with h | ⟨h, _⟩
      · cases hb : b.type
        · rw [hp, hb] at h
          simp [typeRank] at h
        · rfl
      · rw [← h, hp]
    · intro ht
      rcases h with h | ⟨_, h'⟩
      · rw [ht] at h
        exact absurd h (lt_irrefl _)
      · exact h'

/-- C8: isSquare returns whether Math.round of abs(width) equals Math.round
of abs(height); in particular isSquare(10,10) is true, isSquare(10,20)
false, isSquare(10,10.4) true and isSquare(10,10.6) false. -/
theorem isSquare_spec (w h : ℚ) :
    (isSquare w h = true ↔ jsRound |w| = jsRound |h|) ∧
    isSquare 10 10 = true ∧ isSquare 10 20 = false ∧
    isSquare 10 (10.4 : ℚ) = true ∧ isSquare 10 (10.6 : ℚ) = false := by
  refine ⟨by simp [isSquare], ?_, ?_, ?_, ?_⟩ <;>
    norm_num [isSquare, jsRound, abs_of_nonneg]

/-- Witness for C7 at a concrete two-element list: a rectangle created at
time 100 and a point created at time 1. -/
theorem sortShapes_order_witness :
    (sortShapesForRendering
        [⟨0, ShapeType.rectangle, 0, 0, 1, 1, 100⟩, ⟨1, ShapeType.point, 0, 0, 0, 0, 1⟩]).Perm
      [⟨0, ShapeType.rectangle, 0, 0, 1, 1, 100⟩, ⟨1, ShapeType.point, 0, 0, 0, 0, 1⟩] ∧
    (sortShapesForHitTest
        [⟨0, ShapeType.rectangle, 0, 0, 1, 1, 100⟩, ⟨1, ShapeType.point, 0, 0, 0, 0, 1⟩]).Pairwise
      (fun a b => (a.type = ShapeType.rectangle → b.type = ShapeType.rectangle) ∧
        (a.type = b.type → b.createdAt ≤ a.createdAt)) :=
  ⟨(sortShapes_order _).1, (sortShapes_order _).2.2.2⟩

/-! ## End-to-end gesture scenarios -/

/-- The click gesture of C6: pointer-down at (50,50) on the empty canvas,
a sub-threshold pointer-move, pointer-up at (50,50); the Date.now() values
supplied to the events are 0 and 1. -/
def clickGesture : World :=
  handlePointerUp (handlePointerMove (handlePointerDown emptyWorld 50 50) 52 51 false 0) 50 50 1

/-- C6: a pointer-down at (50,50) on the empty canvas with nothing selected
followed by a pointer-up with net movement below the 5 px threshold commits
exactly one new Point at the up coordinates (50,50), grows the history's
past by exactly one entry, and leaves the selection null. -/
theorem click_creates_point :
    clickGesture.hist.present = [⟨0, ShapeType.point, 50, 50, 0, 0, 1⟩] ∧
    clickGesture.hist.past.length = emptyWorld.hist.past.length + 1 ∧
    clickGesture.selectedId = none := by
  have hd : handlePointerDown emptyWorld 50 50 =
      { hist := ⟨[], [], []⟩, selectedId := none,
        inter := { isDragging := false, interactionStart := some (50, 50),
                   activeShapeId := none, hoveredShapeId := none, isResizing := false,
                   resizeCorner := none, initialShapeState := none },
        nextId := 0 } := by
    simp [handlePointerDown, emptyWorld, World.shapes, sortShapesForHitTest,
      InteractionState.initial]
  have hm : handlePointerMove
      ({ hist := ⟨[], [], []⟩, selectedId := none,
         inter := { isDragging := false, interactionStart := some (50, 50),
                    activeShapeId := none, hoveredShapeId := none, isResizing := false,
                    resizeCorner := none, initialShapeState := none },
         nextId := 0 } : World) 52 51 false 0 =
      { hist := ⟨[], [], []⟩, selectedId := none,
        inter := { isDragging := false, interactionStart := some (50, 50),
                   activeShapeId := none, hoveredShapeId := none, isResizing := false,
                   resizeCorner := none, initialShapeState := none },
        nextId := 0 } := by
    simp only [handlePointerMove, World.shapes, onShapesChange]
    norm_num [getDistanceSq]
  have hu : handlePointerUp
      ({ hist := ⟨[], [], []⟩, selectedId := none,
         inter := { isDragging := false, interactionStart := some (50, 50),
                    activeShapeId := none, hoveredShapeId := none, isResizing := false,
                    resizeCorner := none, initialShapeState := none },
         nextId := 0 } : World) 50 50 1 =
      { hist := ⟨[[]], [⟨0, ShapeType.point, 50, 50, 0, 0, 1⟩], []⟩, selectedId := none,
        inter := InteractionState.initial, nextId := 1 } := by
    simp only [handlePointerUp, World.shapes, onShapesChange]
    norm_num [getDistanceSq, HistoryState.set, InteractionState.initial]
  rw [clickGesture, hd, hm, hu]
  exact ⟨rfl, rfl, rfl⟩

/-- The drag gesture of C2: pointer-down at (10,10) on the empty canvas,
pointer-move to (60,80) (distance above the 5 px threshold), pointer-up at
(60,80); the Date.now() values supplied to the events are 1 and 2.  The
post-move world is dragGestureMoved; the post-up world is dragGesture. -/
def dragGestureMoved : World :=
  handlePointerMove (handlePointerDown emptyWorld 10 10) 60 80 false 1

/-- The world after the pointer-up of the C2 drag gesture. -/
def dragGesture : World := handlePointerUp dragGestureMoved 60 80 2

/-- C2, behavior of the code at the claim's input: the pointer-move creates
exactly one new Rectangle with x=10, y=10, width=50, height=70 as a
transient update and past does not grow (these parts of the claim hold),
but after the pointer-up the past is still empty: the committed re-set of
the same shape collection is deduplicated against the present that the
transient update already replaced, so the history length does not increase
by 1 as the claim and the spec require — drag-created shapes never become
undoable. -/
theorem rect_drag_commit_not_pushed :
    dragGestureMoved.hist.present = [⟨0, ShapeType.rectangle, 10, 10, 50, 70, 1⟩] ∧
    dragGestureMoved.hist.past.length = 0 ∧
    dragGesture.hist.present = [⟨0, ShapeType.rectangle, 10, 10, 50, 70, 1⟩] ∧
    dragGesture.hist.past.length = 0 := by
  have hd : handlePointerDown emptyWorld 10 10 =
      { hist := ⟨[], [], []⟩, selectedId := none,
        inter := { isDragging := false, interactionStart := some (10, 10),
                   activeShapeId := none, hoveredShapeId := none, isResizing := false,
                   resizeCorner := none, initialShapeState := none },
        nextId := 0 } := by
    simp [handlePointerDown, emptyWorld, World.shapes, sortShapesForHitTest,
      InteractionState.initial]
  have hm : handlePointerMove
      ({ hist := ⟨[], [], []⟩, selectedId := none,
         inter := { isDragging := false, interactionStart := some (10, 10),
                    activeShapeId := none, hoveredShapeId := none, isResizing := false,
                    resizeCorner := none, initialShapeState := none },
         nextId := 0 } : World) 60 80 false 1 =
      { hist := ⟨[], [⟨0, ShapeType.rectangle, 10, 10, 50, 70, 1⟩], []⟩,
        selectedId := some 0,
        inter := { isDragging := false, interactionStart := some (10, 10),
                   activeShapeId := some 0, hoveredShapeId := none, isResizing := false,
                   resizeCorner := none,
                   initialShapeState := some ⟨0, ShapeType.rectangle, 10, 10, 50, 70, 1⟩ },
        nextId := 1 } := by
    simp only [handlePointerMove, World.shapes, onShapesChange]
    norm_num [getDistanceSq, HistoryState.updateTransient]
  have hu : handlePointerUp
      ({ hist := ⟨[], [⟨0, ShapeType.rectangle, 10, 10, 50, 70, 1⟩], []⟩,
         selectedId := some 0,
         inter := { isDragging := false, interactionStart := some (10, 10),
                    activeShapeId := some 0, hoveredShapeId := none, isResizing := false,
                    resizeCorner := none,
                    initialShapeState := some ⟨0, ShapeType.rectangle, 10, 10, 50, 70, 1⟩ },
         nextId := 1 } : World) 60 80 2 =
      { hist := ⟨[], [⟨0, ShapeType.rectangle, 10, 10, 50, 70, 1⟩], []⟩,
        selectedId := some 0, inter := InteractionState.initial, nextId := 1 } := by
    simp only [handlePointerUp, World.shapes, onShapesChange]
    norm_num [HistoryState.set, InteractionState.initial]
  constructor
  · rw [dragGestureMoved, hd, hm]
  constructor
  · rw [dragGestureMoved, hd, hm]
    rfl
  constructor
  · rw [dragGesture, dragGestureMoved, hd, hm, hu]
  · rw [dragGesture, dragGestureMoved, hd, hm, hu]
    rfl

end Spec2Proof
